import Mathlib

/-!
Verification of the CALIPSO L2 VFM reader (`vfm_reader.py`).

The reader opens one HDF4 file and exposes five derived views:
longitude, latitude, UTC time, a constant 545-bin altitude grid, and the
decoded `Feature_Classification_Flags` array.  We embed the reader
shallowly: an HDF file is a record of optional datasets (a dataset is a
list of rows), numpy slicing becomes `List.drop`/`List.take` (both clip,
exactly like Python slices), the bit operations `>>`/`&` become `>>>`
and `&&&` on `ℕ`, and floating-point values are modelled as exact
rationals.  Errors raised by the underlying library (`pyhdf`) or by
`pandas.to_datetime` are modelled with `Except`/`Option`.
-/

namespace Vfm

/-- An HDF file as seen by `VfmReader`: the four named datasets the
reader selects, each possibly absent.  Numeric datasets are matrices of
rationals, `Feature_Classification_Flags` is a matrix of naturals
(uint16 words). -/
structure SDFile where
  longitude : Option (List (List ℚ))
  latitude : Option (List (List ℚ))
  profileUTCTime : Option (List (List ℚ))
  featureClassificationFlags : Option (List (List ℕ))

/-- Errors surfaced by the reader: a dataset that cannot be read
(`pyhdf` failure) or a time value that cannot be decoded
(`pandas.to_datetime` failure). -/
inductive VfmError where
  | readError (dataset : String)
  | decodeError
  deriving DecidableEq

/-- Column selection `m[:, 0]`: the first column of a matrix; `none` when some row is
empty (numpy raises on indexing an empty axis). -/
def col0 (m : List (List ℚ)) : Option (List ℚ) :=
  m.mapM List.head?

/-- Embedding of `VfmReader.lon`: `self.sd.select('Longitude')[:, 0]`. -/
def lon (f : SDFile) : Except VfmError (List ℚ) :=
  match f.longitude with
  | none => .error (.readError "Longitude")
  | some m =>
    match col0 m with
    | none => .error (.readError "Longitude")
    | some c => .ok c

/-- Embedding of `VfmReader.lat`: `self.sd.select('Latitude')[:, 0]`. -/
def lat (f : SDFile) : Except VfmError (List ℚ) :=
  match f.latitude with
  | none => .error (.readError "Latitude")
  | some m =>
    match col0 m with
    | none => .error (.readError "Latitude")
    | some c => .ok c

/-- Gregorian leap-year rule, as implemented by `pandas` timestamps. -/
def isLeapYear (y : ℕ) : Bool :=
  (y % 4 == 0 && y % 100 != 0) || y % 400 == 0

/-- Number of days in a month of the Gregorian calendar. -/
def daysInMonth (y m : ℕ) : ℕ :=
  if m = 2 then (if isLeapYear y then 29 else 28)
  else if m = 4 ∨ m = 6 ∨ m = 9 ∨ m = 11 then 30
  else 31

/-- A (year, month, day) triple names a real calendar date. -/
def ValidDate (y m d : ℕ) : Prop :=
  1 ≤ m ∧ m ≤ 12 ∧ 1 ≤ d ∧ d ≤ daysInMonth y m

instance (y m d : ℕ) : Decidable (ValidDate y m d) := by
  unfold ValidDate
  infer_instance

/-- Conversion `ndarray.astype(int)`: conversion of a float to int truncates
toward zero. -/
def truncToward0 (x : ℚ) : ℤ :=
  if 0 ≤ x then ⌊x⌋ else -⌊-x⌋

/-- numpy `v % 1`: remainder with a positive modulus, i.e. the
fractional part `v - ⌊v⌋`. -/
def fracPart (x : ℚ) : ℚ :=
  x - (⌊x⌋ : ℚ)

/-- A decoded UTC timestamp: a calendar date plus a fraction of one
day. -/
structure Timestamp where
  year : ℕ
  month : ℕ
  day : ℕ
  dayFraction : ℚ
  deriving DecidableEq

/-- Model of `pandas.to_datetime(str(n), format='%Y%m%d')`: succeeds exactly on
8-digit integers whose digit groups form a valid calendar date
(`str(n)` of an integer with fewer or more digits does not match the
format). -/
def parseYYYYMMDD (n : ℤ) : Option (ℕ × ℕ × ℕ) :=
  if 10 ^ 7 ≤ n ∧ n < 10 ^ 8 then
    if ValidDate (n.toNat / 10000) (n.toNat / 100 % 100) (n.toNat % 100) then
      some (n.toNat / 10000, n.toNat / 100 % 100, n.toNat % 100)
    else none
  else none

/-- One element of `VfmReader.time`: `(v + 2e7).astype(int)` parsed as
`%Y%m%d`, plus `v % 1` as a fraction of a day. -/
def decodeUTC (v : ℚ) : Option Timestamp :=
  match parseYYYYMMDD (truncToward0 (v + 20000000)) with
  | none => none
  | some (y, m, d) => some ⟨y, m, d, fracPart v⟩

/-- Embedding of `VfmReader.time`: decode every element of
`Profile_UTC_Time[:, 0]`. -/
def time (f : SDFile) : Except VfmError (List Timestamp) :=
  match f.profileUTCTime with
  | none => .error (.readError "Profile_UTC_Time")
  | some mtx =>
    match col0 mtx with
    | none => .error (.readError "Profile_UTC_Time")
    | some c =>
      match c.mapM decodeUTC with
      | none => .error .decodeError
      | some ts => .ok ts

/-- Embedding of `VfmReader.height`: the three altitude bands
`(arange(290) + 0.5) * 0.03 - 0.5`, `(arange(200) + 0.5) * 0.06 + 8.2`,
`(arange(55) + 0.5) * 0.18 + 20.2`, concatenated in this order.
Decimal constants are embedded as exact rationals. -/
def height : List ℚ :=
  (List.range 290).map (fun i : ℕ => ((i : ℚ) + 1 / 2) * (3 / 100) - 1 / 2) ++
  (List.range 200).map (fun i : ℕ => ((i : ℚ) + 1 / 2) * (6 / 100) + 82 / 10) ++
  (List.range 55).map (fun i : ℕ => ((i : ℚ) + 1 / 2) * (18 / 100) + 202 / 10)

/-- The shift table of `VfmReader.fcf`: `shifts = [0, 3, 5, 7, 9, 12, 13]`. -/
def shifts : List ℕ := [0, 3, 5, 7, 9, 12, 13]

/-- The mask table of `VfmReader.fcf`: `bits = [7, 3, 3, 3, 7, 1, 7]`. -/
def bits : List ℕ := [7, 3, 3, 3, 7, 1, 7]

/-- Elementwise decoding `fcf[:, :, None] >> shifts & bits` of one
packed word into its 7 fields. -/
def decodeWord (w : ℕ) : List ℕ :=
  List.zipWith (fun s b => w >>> s &&& b) shifts bits

/-- Column selection of `VfmReader.fcf` on one footprint row:
`hstack([fcf[0:55], fcf[165:365], fcf[1165:1455]])[::-1]`.  Python
slices clip at the end of the row, exactly like `drop`/`take`. -/
def selectRow (r : List ℕ) : List ℕ :=
  ((r.drop 0).take 55 ++ (r.drop 165).take 200 ++ (r.drop 1165).take 290).reverse

/-- The whole `fcf` computation on the raw matrix: select and reverse
columns of every row, then decode every word. -/
def fcfOfMatrix (m : List (List ℕ)) : List (List (List ℕ)) :=
  m.map (fun r => (selectRow r).map decodeWord)

/-- Embedding of `VfmReader.fcf`: read `Feature_Classification_Flags`, then slice
and decode.  Note the code performs no shape check on the dataset. -/
def fcf (f : SDFile) : Except VfmError (List (List (List ℕ))) :=
  match f.featureClassificationFlags with
  | none => .error (.readError "Feature_Classification_Flags")
  | some m => .ok (fcfOfMatrix m)

/-- Runtime state of a `VfmReader`: the file it wraps and how many
times `sd.end()` has been called on the handle. -/
structure ReaderState where
  file : SDFile
  endCalls : ℕ

/-- Embedding of `VfmReader.close` (also `__exit__`): calls `self.sd.end()`,
unconditionally releasing the handle once. -/
def close (s : ReaderState) : ReaderState :=
  { s with endCalls := s.endCalls + 1 }

/-- Python `with VfmReader(path) as reader: body`: run the body (which
may end in an error) and call `__exit__`, i.e. `close`, on every exit
path, normal or exceptional. -/
def withReader {α : Type} (body : ReaderState → Except VfmError α × ReaderState)
    (s : ReaderState) : Except VfmError α × ReaderState :=
  ((body s).1, close (body s).2)

/-- Embedding of `VfmReader.height` as an accessor on the reader: the source method
never references `self.sd`, so the embedding ignores the state. -/
def heightOfReader (_s : ReaderState) : List ℚ :=
  height

/-- Length of an `ok` list result; `none` on an error. -/
def okLength {α : Type} (e : Except VfmError (List α)) : Option ℕ :=
  match e with
  | .ok l => some l.length
  | .error _ => none

/-- Field bit-widths from the spec table in §3 (field values are
`(raw_word >> shift) & (2 ^ bitwidth - 1)`). -/
def widths : List ℕ := [3, 2, 2, 2, 3, 1, 3]

/-- Maximum field values from the spec table in §3. -/
def maxVals : List ℕ := [7, 3, 3, 3, 7, 1, 7]

/-- The original column of the raw 5515-wide row that position `p` of
the (unreversed) 545-bin concatenation comes from, per the spec's
ranges `[0:55)`, `[165:365)`, `[1165:1455)`. -/
def bandSourceIndex (p : ℕ) : ℕ :=
  if p < 55 then p
  else if p < 255 then p + 110
  else p + 910

/-- Packing 7 field values into one word by summing `v_k << shift_k`,
as described by the spec's round-trip property (no encoder exists in
the source). -/
def encodeWord (v0 v1 v2 v3 v4 v5 v6 : ℕ) : ℕ :=
  v0 <<< 0 + v1 <<< 3 + v2 <<< 5 + v3 <<< 7 + v4 <<< 9 + v5 <<< 12 + v6 <<< 13

/-- Time decoding as worded by the spec: `yymmdd_int = floor(v + 2e7)`
parsed as `YYYYMMDD`, plus `v mod 1` of a day. -/
def specDecodeUTC (v : ℚ) : Option Timestamp :=
  match parseYYYYMMDD ⌊v + 20000000⌋ with
  | none => none
  | some (y, m, d) => some ⟨y, m, d, fracPart v⟩

/-- The altitude of bin `n` as a single closed form: the piecewise
version of the three band formulas of `height`. -/
def hFun (n : ℕ) : ℚ :=
  if n < 290 then ((n : ℚ) + 1 / 2) * (3 / 100) - 1 / 2
  else if n < 490 then (((n : ℚ) - 290) + 1 / 2) * (6 / 100) + 82 / 10
  else (((n : ℚ) - 490) + 1 / 2) * (18 / 100) + 202 / 10

/-- A fixture: an empty file (every dataset absent). -/
def emptyFile : SDFile :=
  { longitude := none, latitude := none, profileUTCTime := none,
    featureClassificationFlags := none }

/-- A fixture: a body that raises inside the `with` scope and does not
touch the handle. -/
def failingBody (t : ReaderState) : Except VfmError Unit × ReaderState :=
  (.error .decodeError, t)

/-- A fixture: a well-formed one-footprint file. -/
def oneRecFile : SDFile :=
  { longitude := some [[100]], latitude := some [[20]],
    profileUTCTime := some [[(210115 : ℚ)]],
    featureClassificationFlags := some [List.replicate 5515 0] }

/-- A fixture: a file whose flags dataset is present but 1455 columns
wide instead of 5515. -/
def narrowFile : SDFile :=
  { longitude := none, latitude := none, profileUTCTime := none,
    featureClassificationFlags := some [List.replicate 1455 7] }

/-! ### Helper lemmas on bit masking -/

theorem and_mask7 (n : ℕ) : n &&& 7 = n % 8 := by
  have h := Nat.and_pow_two_sub_one_eq_mod n 3
  norm_num at h
  exact h

theorem and_mask3 (n : ℕ) : n &&& 3 = n % 4 := by
  have h := Nat.and_pow_two_sub_one_eq_mod n 2
  norm_num at h
  exact h

theorem and_mask1 (n : ℕ) : n &&& 1 = n % 2 := by
  simpa using Nat.and_pow_two_sub_one_eq_mod n 1

theorem decodeWord_length (w : ℕ) : (decodeWord w).length = 7 := by
  simp [decodeWord, shifts, bits]

/-- Field `k` of a decoded word, written with the spec's
`2 ^ bitwidth - 1` masks: the code's mask table `[7,3,3,3,7,1,7]` is
exactly `2 ^ w - 1` over the width table `[3,2,2,2,3,1,3]`. -/
theorem decodeWord_getD (w k : ℕ) (hk : k < 7) :
    (decodeWord w).getD k 0 =
      w >>> (shifts.getD k 0) &&& (2 ^ (widths.getD k 0) - 1) := by
  interval_cases k <;> simp [decodeWord, shifts, bits, widths] <;> norm_num

theorem map_decodeWord_getD (l : List ℕ) (j k : ℕ) (hk : k < 7) :
    ((l.map decodeWord).getD j []).getD k 0 =
      (l.getD j 0) >>> (shifts.getD k 0) &&& (2 ^ (widths.getD k 0) - 1) := by
  rcases Nat.lt_or_ge j l.length with hj | hj
  · have hj2 : j < (l.map decodeWord).length := by simpa using hj
    rw [List.getD_eq_getElem _ _ hj2, List.getD_eq_getElem _ _ hj,
      List.getElem_map]
    exact decodeWord_getD _ k hk
  · have h1 : (l.map decodeWord).getD j [] = [] :=
      List.getD_eq_default _ _ (by simpa using hj)
    have h2 : l.getD j 0 = 0 := List.getD_eq_default _ _ hj
    rw [h1, h2, Nat.zero_shiftRight, Nat.zero_and]
    simp

/-! ### C1, C6, C7: bit-field decoding -/

/-- Claim C1: for every footprint `i` and altitude bin `j` of the decoded
output, field `k` equals `(raw_word >> shift_k) & (2 ^ bitwidth_k - 1)`
with the pairs `(0,3), (3,2), (5,2), (7,2), (9,3), (12,1), (13,3)`,
applied independently and elementwise to the packed word of that
`(footprint, bin)` pair. -/
theorem fcf_decodes_bitfields (m : List (List ℕ)) (i j k : ℕ)
    (hi : i < m.length) (hj : j < 545) (hk : k < 7)
    (hw : ∀ r ∈ m, r.length = 5515) :
    (((fcfOfMatrix m).getD i []).getD j []).getD k 0 =
      ((selectRow (m.getD i [])).getD j 0) >>> (shifts.getD k 0) &&&
        (2 ^ (widths.getD k 0) - 1) := by
  have hi2 : i < (fcfOfMatrix m).length := by simpa [fcfOfMatrix] using hi
  rw [List.getD_eq_getElem _ _ hi2]
  unfold fcfOfMatrix
  rw [List.getElem_map, List.getD_eq_getElem _ _ hi]
  exact map_decodeWord_getD _ j k hk

/-- Witness for C1 at a concrete matrix, footprint, bin and field. -/
theorem fcf_decodes_bitfields_witness :
    0 < ([List.replicate 5515 65535] : List (List ℕ)).length ∧
    (((fcfOfMatrix [List.replicate 5515 65535]).getD 0 []).getD 0 []).getD 0 0 =
      ((selectRow (([List.replicate 5515 65535] : List (List ℕ)).getD 0 [])).getD 0 0) >>> (shifts.getD 0 0) &&&
        (2 ^ (widths.getD 0 0) - 1) := by
  have hlen : ([List.replicate 5515 65535] : List (List ℕ)).length = 1 :=
    List.length_singleton (List.replicate 5515 65535)
  have hw : ∀ r ∈ ([List.replicate 5515 65535] : List (List ℕ)), r.length = 5515 := by
    intro r hr
    rw [List.mem_singleton] at hr
    subst hr
    exact List.length_replicate 5515 65535
  refine ⟨by rw [hlen]; norm_num, ?_⟩
  exact fcf_decodes_bitfields [List.replicate 5515 65535] 0 0 0
    (by rw [hlen]; norm_num) (by norm_num) (by norm_num) hw

/-- Claim C6: the 7 `(shift, width)` fields are disjoint and cover all 16
bits: decoding the word `Σ v_k <<< shift_k` built from in-range field
values returns exactly those values, and the word fits in 16 bits. -/
theorem decode_encode_roundtrip (v0 v1 v2 v3 v4 v5 v6 : ℕ)
    (h0 : v0 < 2 ^ 3) (h1 : v1 < 2 ^ 2) (h2 : v2 < 2 ^ 2) (h3 : v3 < 2 ^ 2)
    (h4 : v4 < 2 ^ 3) (h5 : v5 < 2 ^ 1) (h6 : v6 < 2 ^ 3) :
    decodeWord (encodeWord v0 v1 v2 v3 v4 v5 v6) = [v0, v1, v2, v3, v4, v5, v6] ∧
    encodeWord v0 v1 v2 v3 v4 v5 v6 < 2 ^ 16 := by
  norm_num at h0 h1 h2 h3 h4 h5 h6
  constructor
  · simp only [decodeWord, encodeWord, shifts, bits, List.zipWith,
      Nat.shiftLeft_eq, Nat.shiftRight_eq_div_pow, and_mask7, and_mask3,
      and_mask1, List.cons.injEq, and_true]
    norm_num
    omega
  · simp only [encodeWord, Nat.shiftLeft_eq]
    norm_num
    omega

/-- Witness for C6 at concrete field values. -/
theorem decode_encode_roundtrip_witness :
    (5 : ℕ) < 2 ^ 3 ∧
    decodeWord (encodeWord 5 2 1 3 6 1 4) = [5, 2, 1, 3, 6, 1, 4] ∧
    encodeWord 5 2 1 3 6 1 4 < 2 ^ 16 := by
  refine ⟨by norm_num, ?_⟩
  exact decode_encode_roundtrip 5 2 1 3 6 1 4 (by norm_num) (by norm_num)
    (by norm_num) (by norm_num) (by norm_num) (by norm_num) (by norm_num)

/-- Claim C7: each decoded field is bounded by the table's max value
(`[7,3,3,3,7,1,7]`); in particular field 5 is always 0 or 1. -/
theorem decoded_fields_bounded (w k : ℕ) (hw : w < 2 ^ 16) (hk : k < 7) :
    (decodeWord w).getD k 0 ≤ maxVals.getD k 0 ∧
    ((decodeWord w).getD 5 0 = 0 ∨ (decodeWord w).getD 5 0 = 1) := by
  constructor
  · interval_cases k <;> simp [decodeWord, shifts, bits, maxVals] <;>
      first
      | exact Nat.and_le_right
      | omega
  · have h : (decodeWord w).getD 5 0 = (w >>> 12) % 2 := by
      simp [decodeWord, shifts, bits, and_mask1]
    omega

/-- Witness for C7 at a concrete word and field. -/
theorem decoded_fields_bounded_witness :
    (65535 : ℕ) < 2 ^ 16 ∧ (5 : ℕ) < 7 ∧
    ((decodeWord 65535).getD 5 0 ≤ maxVals.getD 5 0 ∧
      ((decodeWord 65535).getD 5 0 = 0 ∨ (decodeWord 65535).getD 5 0 = 1)) := by
  refine ⟨by norm_num, by norm_num, ?_⟩
  exact decoded_fields_bounded 65535 5 (by norm_num) (by norm_num)

/-! ### Helper lemmas on column selection -/

theorem selectRow_length (r : List ℕ) (h : 1455 ≤ r.length) :
    (selectRow r).length = 545 := by
  simp [selectRow]
  omega

/-- Position `j` of a selected-and-reversed row comes from original
column `bandSourceIndex (544 - j)`. -/
theorem selectRow_getElem? (r : List ℕ) (h : r.length = 5515) (j : ℕ) (hj : j < 545) :
    (selectRow r)[j]? = r[bandSourceIndex (544 - j)]? := by
  have hA : ((r.drop 0).take 55).length = 55 := by simp [h]
  have hB : ((r.drop 165).take 200).length = 200 := by simp [h]
  have hlen : ((r.drop 0).take 55 ++ (r.drop 165).take 200 ++
      (r.drop 1165).take 290).length = 545 := by simp [h]
  unfold selectRow
  rw [List.getElem?_reverse (by rw [hlen]; omega), hlen]
  have h544 : 545 - 1 - j = 544 - j := by omega
  rw [h544]
  unfold bandSourceIndex
  by_cases h1 : 544 - j < 55
  · rw [if_pos h1,
      List.getElem?_append_left (by rw [List.length_append, hA, hB]; omega),
      List.getElem?_append_left (by rw [hA]; omega),
      List.getElem?_take_of_lt h1, List.getElem?_drop, Nat.zero_add]
  · rw [if_neg h1]
    by_cases h2 : 544 - j < 255
    · rw [if_pos h2,
        List.getElem?_append_left (by rw [List.length_append, hA, hB]; omega),
        List.getElem?_append_right (by rw [hA]; omega), hA,
        List.getElem?_take_of_lt (by omega), List.getElem?_drop]
      have he : 165 + (544 - j - 55) = 544 - j + 110 := by omega
      rw [he]
    · rw [if_neg h2,
        List.getElem?_append_right (by rw [List.length_append, hA, hB]; omega),
        List.length_append, hA, hB,
        List.getElem?_take_of_lt (by omega), List.getElem?_drop]
      have he : 1165 + (544 - j - 255) = 544 - j + 910 := by omega
      rw [he]

theorem selectRow_getD (r : List ℕ) (h : r.length = 5515) (j : ℕ) (hj : j < 545) :
    (selectRow r).getD j 0 = r.getD (bandSourceIndex (544 - j)) 0 := by
  rw [List.getD_eq_getElem?_getD, List.getD_eq_getElem?_getD,
    selectRow_getElem? r h j hj]

/-! ### C2: column selection, concatenation order and reversal -/

/-- Claim C2: on a 5515-wide raw matrix, `fcf` produces `nrec` footprints of
545 bins of 7 fields, and bin `j` is the decoding of original column
`bandSourceIndex (544 - j)` — i.e. exactly the ranges `[0:55)`,
`[165:365)`, `[1165:1455)` concatenated as `[band-3, band-2, band-1]`
and then reversed. -/
theorem fcf_selects_and_reverses (m : List (List ℕ))
    (hw : ∀ r ∈ m, r.length = 5515) :
    (fcfOfMatrix m).length = m.length ∧
    ∀ i, i < m.length →
      ((fcfOfMatrix m).getD i []).length = 545 ∧
      ∀ j, j < 545 →
        (((fcfOfMatrix m).getD i []).getD j []).length = 7 ∧
        ((fcfOfMatrix m).getD i []).getD j [] =
          decodeWord ((m.getD i []).getD (bandSourceIndex (544 - j)) 0) := by
  refine ⟨by simp [fcfOfMatrix], ?_⟩
  intro i hi
  have hi2 : i < (fcfOfMatrix m).length := by simpa [fcfOfMatrix] using hi
  have hrow : (fcfOfMatrix m).getD i [] = (selectRow m[i]).map decodeWord := by
    rw [List.getD_eq_getElem _ _ hi2]
    unfold fcfOfMatrix
    rw [List.getElem_map]
  have hlen5515 : (m[i]).length = 5515 := hw _ (List.getElem_mem hi)
  have hsel : (selectRow m[i]).length = 545 := selectRow_length _ (by omega)
  refine ⟨by rw [hrow]; simp [hsel], ?_⟩
  intro j hj
  have hb : j < (selectRow m[i]).length := by rw [hsel]; omega
  have hj2 : j < ((selectRow m[i]).map decodeWord).length := by
    simpa [hsel] using hj
  have hgd : m.getD i [] = m[i] := List.getD_eq_getElem _ _ hi
  refine ⟨?_, ?_⟩
  · rw [hrow, List.getD_eq_getElem _ _ hj2, List.getElem_map]
    exact decodeWord_length _
  · rw [hrow, hgd, List.getD_eq_getElem _ _ hj2, List.getElem_map]
    have hsg := selectRow_getD (m[i]) hlen5515 j hj
    rw [List.getD_eq_getElem _ _ hb] at hsg
    rw [hsg]

/-- Witness for C2 at a concrete matrix. -/
theorem fcf_selects_and_reverses_witness :
    (∀ r ∈ ([List.replicate 5515 9] : List (List ℕ)), r.length = 5515) ∧
    ((fcfOfMatrix [List.replicate 5515 9]).length =
      ([List.replicate 5515 9] : List (List ℕ)).length ∧
    ∀ i, i < ([List.replicate 5515 9] : List (List ℕ)).length →
      ((fcfOfMatrix [List.replicate 5515 9]).getD i []).length = 545 ∧
      ∀ j, j < 545 →
        (((fcfOfMatrix [List.replicate 5515 9]).getD i []).getD j []).length = 7 ∧
        ((fcfOfMatrix [List.replicate 5515 9]).getD i []).getD j [] =
          decodeWord ((([List.replicate 5515 9] : List (List ℕ)).getD i []).getD
            (bandSourceIndex (544 - j)) 0)) := by
  have hw : ∀ r ∈ ([List.replicate 5515 9] : List (List ℕ)), r.length = 5515 := by
    intro r hr
    rw [List.mem_singleton] at hr
    subst hr
    exact List.length_replicate 5515 9
  exact ⟨hw, fcf_selects_and_reverses [List.replicate 5515 9] hw⟩

/-! ### C4: no column-count check in `fcf` -/

/-- Counterexample for C4: a file whose `Feature_Classification_Flags`
dataset is present with 1455 columns (not 5515) — `fcf` silently
returns a result instead of failing. -/
theorem fcf_accepts_wrong_width :
    (List.replicate 1455 (7 : ℕ)).length ≠ 5515 ∧
    (fcf narrowFile).isOk = true := by
  constructor
  · rw [List.length_replicate]
    norm_num
  · rfl

/-- Amended claim C4: `fcf` raises its read error exactly when the dataset is
absent; when the dataset is present it never checks the column count —
it returns a decoded result for any width, with 545 bins per footprint
whenever rows have at least 1455 columns (narrower rows silently clip
to fewer bins). -/
theorem fcf_width_unchecked (f : SDFile) (m : List (List ℕ))
    (hm : f.featureClassificationFlags = some m) :
    fcf f = .ok (fcfOfMatrix m) ∧
    (fcfOfMatrix m).length = m.length ∧
    (∀ r ∈ m, 1455 ≤ r.length → (selectRow r).length = 545) ∧
    (∀ g : SDFile, g.featureClassificationFlags = none →
      fcf g = .error (.readError "Feature_Classification_Flags")) := by
  refine ⟨by simp [fcf, hm], by simp [fcfOfMatrix], ?_, ?_⟩
  · intro r _ hle
    exact selectRow_length r hle
  · intro g hg
    simp [fcf, hg]

/-- Witness for the amended C4 at the 1455-wide fixture. -/
theorem fcf_width_unchecked_witness :
    narrowFile.featureClassificationFlags = some [List.replicate 1455 7] ∧
    (fcf narrowFile = .ok (fcfOfMatrix [List.replicate 1455 7]) ∧
    (fcfOfMatrix [List.replicate 1455 7]).length =
      ([List.replicate 1455 7] : List (List ℕ)).length ∧
    (∀ r ∈ ([List.replicate 1455 7] : List (List ℕ)), 1455 ≤ r.length →
      (selectRow r).length = 545) ∧
    (∀ g : SDFile, g.featureClassificationFlags = none →
      fcf g = .error (.readError "Feature_Classification_Flags"))) :=
  ⟨rfl, fcf_width_unchecked narrowFile [List.replicate 1455 7] rfl⟩

/-! ### Helper lemmas on the altitude grid -/

theorem height_getD (n : ℕ) (hn : n < 545) : height.getD n 0 = hFun n := by
  have hb1 : ((List.range 290).map
      (fun i : ℕ => ((i : ℚ) + 1 / 2) * (3 / 100) - 1 / 2)).length = 290 := by simp
  have hb2 : ((List.range 200).map
      (fun i : ℕ => ((i : ℚ) + 1 / 2) * (6 / 100) + 82 / 10)).length = 200 := by simp
  rw [List.getD_eq_getElem?_getD]
  unfold height hFun
  by_cases h1 : n < 290
  · rw [List.getElem?_append_left (by rw [List.length_append, hb1, hb2]; omega),
      List.getElem?_append_left (by rw [hb1]; omega),
      List.getElem?_map, List.getElem?_range h1, if_pos h1]
    rfl
  · by_cases h2 : n < 490
    · rw [List.getElem?_append_left (by rw [List.length_append, hb1, hb2]; omega),
        List.getElem?_append_right (by rw [hb1]; omega), hb1,
        List.getElem?_map, List.getElem?_range (by omega : n - 290 < 200),
        if_neg h1, if_pos h2]
      have hc : ((n - 290 : ℕ) : ℚ) = (n : ℚ) - 290 := by
        push_cast [Nat.cast_sub (by omega : 290 ≤ n)]
        ring
      simp [hc]
    · rw [List.getElem?_append_right (by rw [List.length_append, hb1, hb2]; omega),
        List.length_append, hb1, hb2,
        show (290 : ℕ) + 200 = 490 from rfl,
        List.getElem?_map, List.getElem?_range (by omega : n - 490 < 55),
        if_neg h1, if_neg h2]
      have hc : ((n - 490 : ℕ) : ℚ) = (n : ℚ) - 490 := by
        push_cast [Nat.cast_sub (by omega : 490 ≤ n)]
        ring
      simp [hc]

theorem hFun_lt_succ (n : ℕ) (hn : n + 1 < 545) : hFun n < hFun (n + 1) := by
  unfold hFun
  rcases Nat.lt_or_ge (n + 1) 290 with h1 | h1
  · rw [if_pos (show n < 290 by omega), if_pos h1]
    push_cast
    linarith
  · rcases Nat.lt_or_ge (n + 1) 490 with h2 | h2
    · rcases Nat.eq_or_lt_of_le h1 with h3 | h3
      · have hn289 : n = 289 := by omega
        subst hn289
        norm_num
      · rw [if_neg (show ¬n < 290 by omega), if_pos (show n < 490 by omega),
          if_neg (show ¬n + 1 < 290 by omega), if_pos (show n + 1 < 490 by omega)]
        push_cast
        linarith
    · rcases Nat.eq_or_lt_of_le h2 with h3 | h3
      · have hn489 : n = 489 := by omega
        subst hn489
        norm_num
      · rw [if_neg (show ¬n < 290 by omega), if_neg (show ¬n < 490 by omega),
          if_neg (show ¬n + 1 < 290 by omega), if_neg (show ¬n + 1 < 490 by omega)]
        push_cast
        linarith

theorem hFun_mono : ∀ j i, i < j → j < 545 → hFun i < hFun j := by
  intro j
  induction j with
  | zero => intro i h _; omega
  | succ k ih =>
    intro i hij hj
    rcases Nat.lt_or_ge i k with h | h
    · exact lt_trans (ih i h (by omega)) (hFun_lt_succ k hj)
    · have hik : i = k := by omega
      subst hik
      exact hFun_lt_succ i hj

theorem height_length : height.length = 545 := by
  simp [height]

/-! ### C3: the altitude grid -/

/-- Counterexample for C3: at index 544 the closed form of the source
(`(54 + 0.5) * 0.18 + 20.2`) evaluates to 30.01 km, not the claimed
30.11 km. -/
theorem height_top_bin_value :
    height.getD 544 0 = 3001 / 100 ∧ ((3001 : ℚ) / 100 ≠ 3011 / 100) := by
  constructor
  · rw [height_getD 544 (by norm_num)]
    unfold hFun
    norm_num
  · norm_num

/-- Amended claim C3: `height` has exactly 545 entries given by the three
band formulas, independent of any file, strictly increasing, with the
boundary values −0.485, 8.185, 8.23, 20.17, 20.29 and 30.01 km (the
last bin is 30.01 km, not 30.11 km as claimed). -/
theorem height_closed_form :
    height.length = 545 ∧
    (∀ i, i < 290 → height.getD i 0 = ((i : ℚ) + 1 / 2) * (3 / 100) - 1 / 2) ∧
    (∀ j, j < 200 → height.getD (290 + j) 0 = ((j : ℚ) + 1 / 2) * (6 / 100) + 82 / 10) ∧
    (∀ k, k < 55 → height.getD (490 + k) 0 = ((k : ℚ) + 1 / 2) * (18 / 100) + 202 / 10) ∧
    (∀ i j, i < j → j < 545 → height.getD i 0 < height.getD j 0) ∧
    height.getD 0 0 = -(485 / 1000) ∧ height.getD 289 0 = 8185 / 1000 ∧
    height.getD 290 0 = 823 / 100 ∧ height.getD 489 0 = 2017 / 100 ∧
    height.getD 490 0 = 2029 / 100 ∧ height.getD 544 0 = 3001 / 100 := by
  refine ⟨height_length, ?_, ?_, ?_, ?_, ?_, ?_, ?_, ?_, ?_, ?_⟩
  · intro i hi
    rw [height_getD _ (by omega)]
    unfold hFun
    rw [if_pos hi]
  · intro j hj
    rw [height_getD _ (by omega)]
    unfold hFun
    rw [if_neg (show ¬290 + j < 290 by omega), if_pos (show 290 + j < 490 by omega)]
    push_cast
    ring
  · intro k hk
    rw [height_getD _ (by omega)]
    unfold hFun
    rw [if_neg (show ¬490 + k < 290 by omega), if_neg (show ¬490 + k < 490 by omega)]
    push_cast
    ring
  · intro i j hij hj
    rw [height_getD i (by omega), height_getD j hj]
    exact hFun_mono j i hij hj
  all_goals rw [height_getD _ (by norm_num)]; unfold hFun; norm_num

/-- Witness for C3 at concrete indices. -/
theorem height_closed_form_witness :
    (5 : ℕ) < 290 ∧ (1 : ℕ) < 3 ∧ (3 : ℕ) < 545 ∧
    height.getD 5 0 = ((5 : ℚ) + 1 / 2) * (3 / 100) - 1 / 2 ∧
    height.getD 1 0 < height.getD 3 0 := by
  refine ⟨by norm_num, by norm_num, by norm_num, ?_, ?_⟩
  · exact height_closed_form.2.1 5 (by norm_num)
  · exact height_closed_form.2.2.2.2.1 1 3 (by norm_num) (by norm_num)

/-! ### Helper lemmas on time decoding and `mapM` -/

theorem truncToward0_of_nonneg (x : ℚ) (hx : 0 ≤ x) : truncToward0 x = ⌊x⌋ :=
  if_pos hx

/-- Code-side truncation agrees with the spec's `floor` on nonnegative
time values. -/
theorem decodeUTC_eq_spec (v : ℚ) (hv : 0 ≤ v) : decodeUTC v = specDecodeUTC v := by
  unfold decodeUTC specDecodeUTC
  rw [truncToward0_of_nonneg _ (by linarith)]

theorem parse_20210115 : parseYYYYMMDD 20210115 = some (2021, 1, 15) := by
  unfold parseYYYYMMDD
  rw [if_pos (by norm_num : (10 : ℤ) ^ 7 ≤ 20210115 ∧ (20210115 : ℤ) < 10 ^ 8),
    show ((20210115 : ℤ)).toNat = 20210115 from rfl]
  norm_num [ValidDate, daysInMonth, isLeapYear]

/-- The spec's worked example: `210115.12345678` decodes to 2021-01-15
plus `0.12345678` of a day. -/
theorem decodeUTC_concrete :
    decodeUTC ((21011512345678 : ℚ) / 100000000) =
      some ⟨2021, 1, 15, (12345678 : ℚ) / 100000000⟩ := by
  have hfloor1 : ⌊(21011512345678 : ℚ) / 100000000 + 20000000⌋ = 20210115 := by
    rw [show (21011512345678 : ℚ) / 100000000 + 20000000 =
      2021011512345678 / 100000000 by norm_num]
    norm_num [Int.floor_eq_iff]
  have hfloor2 : ⌊(21011512345678 : ℚ) / 100000000⌋ = 210115 := by
    norm_num [Int.floor_eq_iff]
  have hfrac : fracPart ((21011512345678 : ℚ) / 100000000) = 12345678 / 100000000 := by
    unfold fracPart
    rw [hfloor2]
    norm_num
  unfold decodeUTC
  rw [truncToward0_of_nonneg _ (by norm_num), hfloor1, parse_20210115]
  simp [hfrac]

/-- Every successfully decoded timestamp has a year of the form
`2000 + YY` where `YY` comes from the integer part of the raw value. -/
theorem decodeUTC_year (v : ℚ) (hv : 0 ≤ v) (t : Timestamp)
    (ht : decodeUTC v = some t) : t.year = 2000 + ⌊v⌋.toNat / 10000 := by
  have hfl : truncToward0 (v + 20000000) = ⌊v⌋ + 20000000 := by
    rw [truncToward0_of_nonneg _ (by linarith),
      show (20000000 : ℚ) = ((20000000 : ℤ) : ℚ) by norm_num]
    exact Int.floor_add_int v 20000000
  have h0 : 0 ≤ ⌊v⌋ := Int.floor_nonneg.mpr hv
  unfold decodeUTC parseYYYYMMDD at ht
  rw [hfl] at ht
  by_cases hc : (10 : ℤ) ^ 7 ≤ ⌊v⌋ + 20000000 ∧ ⌊v⌋ + 20000000 < 10 ^ 8
  · rw [if_pos hc] at ht
    by_cases hvd : ValidDate ((⌊v⌋ + 20000000).toNat / 10000)
        ((⌊v⌋ + 20000000).toNat / 100 % 100) ((⌊v⌋ + 20000000).toNat % 100)
    · rw [if_pos hvd] at ht
      simp only [Option.some.injEq] at ht
      subst ht
      simp only []
      omega
    · rw [if_neg hvd] at ht
      simp at ht
  · rw [if_neg hc] at ht
    simp at ht

theorem mapM_congr {α β : Type} (f g : α → Option β) :
    ∀ l : List α, (∀ x ∈ l, f x = g x) → l.mapM f = l.mapM g := by
  intro l
  induction l with
  | nil => intro _; rfl
  | cons a t ih =>
    intro h
    rw [List.mapM_cons, List.mapM_cons, h a (by simp),
      ih (fun x hx => h x (by simp [hx]))]

theorem mapM_some_length {α β : Type} (f : α → Option β) :
    ∀ (l : List α) (l2 : List β), l.mapM f = some l2 → l2.length = l.length := by
  intro l
  induction l with
  | nil =>
    intro l2 h
    simp only [List.mapM_nil, Option.pure_def, Option.some.injEq] at h
    rw [← h]
    rfl
  | cons a t ih =>
    intro l2 h
    rw [List.mapM_cons] at h
    cases hfa : f a with
    | none => rw [hfa] at h; simp at h
    | some b =>
      rw [hfa] at h
      cases hft : t.mapM f with
      | none => rw [hft] at h; simp at h
      | some bs =>
        rw [hft] at h
        simp at h
        rw [← h]
        simp [ih bs hft]

theorem mapM_isSome {α β : Type} (f : α → Option β) :
    ∀ l : List α, (∀ x ∈ l, (f x).isSome) → (l.mapM f).isSome := by
  intro l
  induction l with
  | nil => intro _; rfl
  | cons a t ih =>
    intro h
    rw [List.mapM_cons]
    cases hfa : f a with
    | none => have hx := h a (by simp); rw [hfa] at hx; simp at hx
    | some b =>
      have ht := ih (fun x hx => h x (by simp [hx]))
      cases hft : t.mapM f with
      | none => rw [hft] at ht; simp at ht
      | some bs => simp

theorem col0_of_nonempty :
    ∀ m : List (List ℚ), (∀ r ∈ m, r ≠ []) →
      col0 m = some (m.map fun r => r.headD 0) := by
  intro m
  induction m with
  | nil => intro _; rfl
  | cons a t ih =>
    intro h
    unfold col0 at ih ⊢
    rw [List.mapM_cons, ih (fun r hr => h r (by simp [hr]))]
    cases a with
    | nil => exact absurd rfl (h [] (by simp))
    | cons x xs => simp

/-! ### C5: time decoding -/

/-- Claim C5: on nonnegative raw values, `time` behaves exactly as the
spec's algorithm (`floor(v + 2e7)` parsed as `YYYYMMDD` with
`YYYY = 2000 + YY`, plus `v mod 1` of a day), failing with the decode
error when some value has no valid calendar date; the worked example
`210115.12345678` decodes to 2021-01-15 plus `0.12345678` of a day. -/
theorem time_matches_spec (f : SDFile) (tm : List (List ℚ)) (c : List ℚ)
    (h1 : f.profileUTCTime = some tm) (h2 : col0 tm = some c)
    (hpos : ∀ v ∈ c, 0 ≤ v) :
    (∀ ts, c.mapM specDecodeUTC = some ts → time f = .ok ts) ∧
    (c.mapM specDecodeUTC = none → time f = .error .decodeError) ∧
    (∀ v ∈ c, ∀ t, decodeUTC v = some t → t.year = 2000 + ⌊v⌋.toNat / 10000) ∧
    decodeUTC ((21011512345678 : ℚ) / 100000000) =
      some ⟨2021, 1, 15, (12345678 : ℚ) / 100000000⟩ := by
  have hmap : c.mapM decodeUTC = c.mapM specDecodeUTC :=
    mapM_congr _ _ c (fun v hv => decodeUTC_eq_spec v (hpos v hv))
  refine ⟨?_, ?_, ?_, decodeUTC_concrete⟩
  · intro ts hts
    simp only [time, h1, h2, hmap, hts]
  · intro hnone
    simp only [time, h1, h2, hmap, hnone]
  · intro v hv t ht
    exact decodeUTC_year v (hpos v hv) t ht

/-- Witness for C5 at the one-record fixture. -/
theorem time_matches_spec_witness :
    oneRecFile.profileUTCTime = some [[(210115 : ℚ)]] ∧
    col0 [[(210115 : ℚ)]] = some [(210115 : ℚ)] ∧
    decodeUTC ((21011512345678 : ℚ) / 100000000) =
      some ⟨2021, 1, 15, (12345678 : ℚ) / 100000000⟩ := by
  refine ⟨rfl, rfl, ?_⟩
  exact (time_matches_spec oneRecFile [[(210115 : ℚ)]] [(210115 : ℚ)] rfl rfl
    (by intro v hv; rw [List.mem_singleton] at hv; subst hv; norm_num)).2.2.2

/-! ### C8: length agreement across the derived views -/

/-- Whole-number time values decode with a zero day fraction. -/
theorem decodeUTC_210115 : decodeUTC (210115 : ℚ) = some ⟨2021, 1, 15, 0⟩ := by
  have hfloor1 : ⌊(210115 : ℚ) + 20000000⌋ = 20210115 := by
    norm_num
  have hfrac : fracPart (210115 : ℚ) = 0 := by
    unfold fracPart
    norm_num
  unfold decodeUTC
  rw [truncToward0_of_nonneg _ (by norm_num), hfloor1, parse_20210115]
  simp [hfrac]

/-- Claim C8: on a valid file — the three geolocation/time datasets of
shape `(nrec, ≥1)` with decodable times and flags of shape
`(nrec, 5515)` — the four derived views all have `nrec` records. -/
theorem lengths_agree (f : SDFile) (nrec : ℕ) (lm am tm : List (List ℚ))
    (fm : List (List ℕ))
    (hlon : f.longitude = some lm) (hlat : f.latitude = some am)
    (htime : f.profileUTCTime = some tm)
    (hfcf : f.featureClassificationFlags = some fm)
    (hl : lm.length = nrec) (ha : am.length = nrec) (ht : tm.length = nrec)
    (hf : fm.length = nrec)
    (hl1 : ∀ r ∈ lm, r ≠ []) (ha1 : ∀ r ∈ am, r ≠ []) (ht1 : ∀ r ∈ tm, r ≠ [])
    (hfw : ∀ r ∈ fm, r.length = 5515)
    (hdec : ∀ r ∈ tm, (decodeUTC (r.headD 0)).isSome) :
    okLength (lon f) = some nrec ∧ okLength (lat f) = some nrec ∧
    okLength (time f) = some nrec ∧ okLength (fcf f) = some nrec := by
  have hcl : col0 lm = some (lm.map fun r => r.headD 0) := col0_of_nonempty lm hl1
  have hca : col0 am = some (am.map fun r => r.headD 0) := col0_of_nonempty am ha1
  have hct : col0 tm = some (tm.map fun r => r.headD 0) := col0_of_nonempty tm ht1
  refine ⟨?_, ?_, ?_, ?_⟩
  · simp [lon, hlon, hcl, okLength, hl]
  · simp [lat, hlat, hca, okLength, ha]
  · have hall : ∀ v ∈ tm.map (fun r => r.headD 0), (decodeUTC v).isSome := by
      intro v hv
      rw [List.mem_map] at hv
      obtain ⟨r, hr, hveq⟩ := hv
      rw [← hveq]
      exact hdec r hr
    obtain ⟨ts, hts⟩ :=
      Option.isSome_iff_exists.mp (mapM_isSome decodeUTC _ hall)
    have hlen := mapM_some_length decodeUTC _ ts hts
    simp only [time, htime, hct, hts, okLength]
    rw [hlen]
    simp [ht]
  · simp [fcf, hfcf, okLength, fcfOfMatrix, hf]

/-- Witness for C8 at the one-record fixture. -/
theorem lengths_agree_witness :
    oneRecFile.longitude = some [[100]] ∧
    (okLength (lon oneRecFile) = some 1 ∧ okLength (lat oneRecFile) = some 1 ∧
      okLength (time oneRecFile) = some 1 ∧ okLength (fcf oneRecFile) = some 1) := by
  refine ⟨rfl, ?_⟩
  have hne : ∀ r ∈ ([[(210115 : ℚ)]] : List (List ℚ)), r ≠ [] := by
    intro r hr
    rw [List.mem_singleton] at hr
    subst hr
    simp
  have hfw : ∀ r ∈ ([List.replicate 5515 0] : List (List ℕ)), r.length = 5515 := by
    intro r hr
    rw [List.mem_singleton] at hr
    subst hr
    exact List.length_replicate 5515 0
  have hdec : ∀ r ∈ ([[(210115 : ℚ)]] : List (List ℚ)),
      (decodeUTC (r.headD 0)).isSome := by
    intro r hr
    rw [List.mem_singleton] at hr
    subst hr
    rw [show (([(210115 : ℚ)] : List ℚ).headD 0) = (210115 : ℚ) from rfl,
      decodeUTC_210115]
    rfl
  exact lengths_agree oneRecFile 1 [[100]] [[20]] [[(210115 : ℚ)]]
    [List.replicate 5515 0] rfl rfl rfl rfl rfl rfl rfl
    (List.length_singleton (List.replicate 5515 0))
    (by intro r hr; rw [List.mem_singleton] at hr; subst hr; simp)
    (by intro r hr; rw [List.mem_singleton] at hr; subst hr; simp)
    hne hfw hdec

/-! ### C9: scoped acquisition releases the handle exactly once -/

/-- Claim C9: for any body that does not itself close the handle,
leaving the `with` scope calls `sd.end()` exactly once — on the normal
path and on the exceptional path alike — and the body's outcome is
propagated unchanged. -/
theorem scoped_close_exactly_once {α : Type}
    (body : ReaderState → Except VfmError α × ReaderState) (s : ReaderState)
    (hbody : ∀ t, ((body t).2).endCalls = t.endCalls) :
    ((withReader body s).2).endCalls = s.endCalls + 1 ∧
    (withReader body s).1 = (body s).1 := by
  refine ⟨?_, rfl⟩
  simp [withReader, close, hbody s]

/-- Witness for C9: a body that raises inside the scope still leaves
`endCalls` at exactly one. -/
theorem scoped_close_exactly_once_witness :
    (∀ t, ((failingBody t).2).endCalls = t.endCalls) ∧
    ((withReader failingBody { file := emptyFile, endCalls := 0 }).2).endCalls = 0 + 1 ∧
    (withReader failingBody { file := emptyFile, endCalls := 0 }).1 =
      (failingBody { file := emptyFile, endCalls := 0 }).1 := by
  have h := scoped_close_exactly_once failingBody
    { file := emptyFile, endCalls := 0 } (fun t => rfl)
  exact ⟨fun t => rfl, h.1, h.2⟩

/-! ### C10: `height` never touches the file handle -/

/-- Claim C10: the altitude grid is identical for any two reader states
— different file contents or an already-closed handle included — is the
constant `height`, and always has 545 entries; its embedding is total,
so no read error is possible. -/
theorem height_state_independent (s1 s2 : ReaderState) :
    heightOfReader s1 = heightOfReader s2 ∧
    heightOfReader (close s1) = heightOfReader s1 ∧
    heightOfReader s1 = height ∧
    (heightOfReader s1).length = 545 :=
  ⟨rfl, rfl, rfl, height_length⟩

end Vfm
